import Mathlib

/-!
Verification of the disease classification and detection-annotation pipeline of
the Apple-Leaf-Disease-Detection dashboard (`src/app.py`).

The embedding translates the pure core of the source:
* `DISEASE_INFO` — the static disease knowledge base (a Python dict, which
  preserves insertion order; modelled as an association list in that order).
* `get_disease_info` — the label resolver (`app.py` lines 96–108).
* `annotate_image` — the detection annotator (`app.py` lines 739–781).
  The `cv2` drawing primitives and Python float formatting are external
  library calls and are modelled as an abstract record of operations.
* the session history ledger (`app.py` lines 838–846, 1132–1143) and its
  summary statistics (`app.py` lines 1213–1244).

Python floats (detection confidences) are modelled as rationals; all strings
involved are ASCII, so Python `str.lower` agrees with `Char.toLower` mapped
over the characters.
-/

/-- One entry of the `DISEASE_INFO` dict: the value dict with its keys
`display`, `severity`, `color`, `bg`, `icon`, `description`, `symptoms`,
`treatment`, `prevention`, `severity_score`. -/
structure DiseaseProfile where
  display : String
  severity : String
  color : String
  bg : String
  icon : String
  description : String
  symptoms : List String
  treatment : List String
  prevention : List String
  severity_score : Nat
deriving DecidableEq, Repr

/-- `DISEASE_INFO["apple_scab"]` (`app.py` lines 34–45). -/
def appleScabKB : DiseaseProfile where
  display := "Apple Scab"
  severity := "Moderate"
  color := "#8B6914"
  bg := "rgba(139,105,20,0.12)"
  icon := "🟤"
  description := "Caused by the fungus Venturia inaequalis. Appears as olive-green to brown velvety spots on leaves."
  symptoms := ["Olive-green or brown velvety lesions", "Yellowing around infected areas", "Premature leaf drop", "Distorted leaves"]
  treatment := ["Apply fungicide (Captan, Mancozeb) at bud break", "Remove and destroy infected leaves", "Prune for better air circulation", "Apply dormant oil spray in early spring"]
  prevention := ["Plant resistant varieties", "Avoid overhead irrigation", "Rake and destroy fallen leaves", "Apply lime sulfur before bud break"]
  severity_score := 6

/-- `DISEASE_INFO["black_rot"]` (`app.py` lines 46–57). -/
def blackRotKB : DiseaseProfile where
  display := "Black Rot"
  severity := "Severe"
  color := "#c0392b"
  bg := "rgba(192,57,43,0.12)"
  icon := "🔴"
  description := "Caused by Botryosphaeria obtusa. Produces circular lesions with purple margins that turn brown-black."
  symptoms := ["Circular lesions with purple margins", "Brown-black center with concentric rings", "Frog-eye appearance", "Cankers on branches"]
  treatment := ["Remove and destroy infected plant parts", "Apply copper-based fungicide", "Prune cankers 15cm beyond visible infection", "Bordeaux mixture applications"]
  prevention := ["Remove mummified fruits and dead wood", "Maintain tree vigor through fertilization", "Avoid wounding bark", "Proper spacing for air circulation"]
  severity_score := 9

/-- `DISEASE_INFO["cedar_apple_rust"]` (`app.py` lines 58–69). -/
def cedarAppleRustKB : DiseaseProfile where
  display := "Cedar Apple Rust"
  severity := "High"
  color := "#e67e22"
  bg := "rgba(230,126,34,0.12)"
  icon := "🟠"
  description := "Caused by Gymnosporangium juniperi-virginianae. Requires both cedar/juniper and apple as alternate hosts."
  symptoms := ["Bright orange-yellow spots on upper leaf surface", "Tube-like structures on leaf undersides", "Premature defoliation", "Fruit deformation"]
  treatment := ["Apply myclobutanil or triadimefon fungicide", "Start treatments at pink bud stage", "Repeat every 7–10 days during wet spring", "Remove nearby juniper/cedar if possible"]
  prevention := ["Plant resistant apple varieties", "Remove nearby juniper galls in winter", "Avoid planting apple near cedar trees", "Apply protective fungicides in spring"]
  severity_score := 7

/-- `DISEASE_INFO["healthy"]` (`app.py` lines 70–81). -/
def healthyKB : DiseaseProfile where
  display := "Healthy Leaf"
  severity := "None"
  color := "#27ae60"
  bg := "rgba(39,174,96,0.12)"
  icon := "🟢"
  description := "The leaf shows no signs of disease. Continue regular monitoring and preventive care."
  symptoms := ["No visible lesions", "Uniform green color", "Normal leaf structure", "Healthy veination"]
  treatment := ["No treatment required", "Maintain regular watering schedule", "Continue balanced fertilization", "Monitor periodically"]
  prevention := ["Regular scouting every 7–10 days", "Maintain tree health with proper nutrition", "Ensure good air circulation", "Remove fallen leaves in autumn"]
  severity_score := 0

/-- `DISEASE_INFO["unknown"]` (`app.py` lines 82–93). -/
def unknownKB : DiseaseProfile where
  display := "Unknown Class"
  severity := "—"
  color := "#7f8c8d"
  bg := "rgba(127,140,141,0.12)"
  icon := "⚪"
  description := "The model has detected an object with a custom class label from your training data."
  symptoms := ["Refer to your dataset labels"]
  treatment := ["Refer to domain-specific guidance"]
  prevention := ["Monitor regularly"]
  severity_score := 5

/-- `DISEASE_INFO` (`app.py` lines 33–94), in the dict's insertion order,
which is the order Python iterates it in. -/
def DISEASE_INFO : List (String × DiseaseProfile) :=
  [("apple_scab", appleScabKB),
   ("black_rot", blackRotKB),
   ("cedar_apple_rust", cedarAppleRustKB),
   ("healthy", healthyKB),
   ("unknown", unknownKB)]

/-- The canonical disease keys of the knowledge base, i.e. every key of
`DISEASE_INFO` other than the designated `unknown` fallback key
(spec §4.1, §8: apple_scab, black_rot, cedar_apple_rust, healthy). -/
def canonicalKeys : List String :=
  ["apple_scab", "black_rot", "cedar_apple_rust", "healthy"]

/-- Python substring containment `a in b` on strings: `a` occurs as a
contiguous substring of `b`. -/
def isSubstr (a b : String) : Bool :=
  b.toList.tails.any (fun t => a.toList.isPrefixOf t)

/-- `class_name.lower().replace(" ", "_").replace("-", "_")` (`app.py` line
98).  Lowering happens first; `' '` and `'-'` are unaffected by lowering, so
the composition is character-wise. -/
def normalizeLabel (s : String) : String :=
  String.mk (s.toList.map (fun c =>
    let lc := c.toLower
    if lc == ' ' || lc == '-' then '_' else lc))

/-- `key in cn or cn in key` (`app.py` line 100). -/
def substrMatch (key cn : String) : Bool :=
  isSubstr key cn || isSubstr cn key

/-- `key.split("_")[0]` (`app.py` line 104): the prefix of the key up to the
first underscore. -/
def firstToken (s : String) : String :=
  String.mk (s.toList.takeWhile (fun c => c != '_'))

/-- The first `for key in DISEASE_INFO` loop of `get_disease_info`
(`app.py` lines 99–101): first key standing in substring relation with the
normalized label, in dict order.  Note the loop runs over ALL keys of
`DISEASE_INFO`, the `unknown` key included. -/
def matchStep (cn : String) : Option (String × DiseaseProfile) :=
  DISEASE_INFO.find? (fun kv => substrMatch kv.1 cn)

/-- The second `for key, val in DISEASE_INFO.items()` loop of
`get_disease_info` (`app.py` lines 103–105): first key whose first token is a
substring of the normalized label. -/
def tokenStep (cn : String) : Option (String × DiseaseProfile) :=
  DISEASE_INFO.find? (fun kv => isSubstr (firstToken kv.1) cn)

/-- `get_disease_info` (`app.py` lines 96–108).  The final fallback models
`DISEASE_INFO["unknown"].copy()` followed by `info["display"] = class_name`:
a shallow copy is taken and only the copy's `display` is overwritten. -/
def get_disease_info (class_name : String) : DiseaseProfile :=
  match matchStep (normalizeLabel class_name) with
  | some kv => kv.2
  | none =>
    match tokenStep (normalizeLabel class_name) with
    | some kv => kv.2
    | none => { unknownKB with display := class_name }

/-- Dict key access `DISEASE_INFO[key]` of the knowledge base (spec §4.1
`lookup(key)`), returning `none` for an absent key. -/
def lookupKB (key : String) : Option DiseaseProfile :=
  (DISEASE_INFO.find? (fun kv => kv.1 == key)).map (fun kv => kv.2)

/-- The condition of claim C1's fallback clause, as the claim states it: the
normalized label stands in no substring relation with any canonical disease
key, and no canonical key's first token occurs in the normalized label. -/
def matchesNoCanonicalKey (s : String) : Bool :=
  canonicalKeys.all (fun k =>
    !(substrMatch k (normalizeLabel s)) && !(isSubstr (firstToken k) (normalizeLabel s)))

/-- State-passing version of `get_disease_info` (`app.py` lines 96–108) that
threads the catalog through explicitly, so that the read-only contract of the
knowledge base can be stated: the code's only write,
`info["display"] = class_name`, hits the fresh dict produced by
`DISEASE_INFO["unknown"].copy()`, so every branch hands the catalog back
unchanged.  (The `.getD unknownKB` default is never taken on the real
catalog, which contains the `unknown` key.) -/
def get_disease_info_mut (catalog : List (String × DiseaseProfile)) (class_name : String) :
    List (String × DiseaseProfile) × DiseaseProfile :=
  match catalog.find? (fun kv => substrMatch kv.1 (normalizeLabel class_name)) with
  | some kv => (catalog, kv.2)
  | none =>
    match catalog.find? (fun kv => isSubstr (firstToken kv.1) (normalizeLabel class_name)) with
    | some kv => (catalog, kv.2)
    | none =>
      let info := ((catalog.find? (fun kv => kv.1 == "unknown")).map (fun kv => kv.2)).getD unknownKB
      (catalog, { info with display := class_name })

/-- One element of the `dets` list built by `annotate_image`
(`app.py` lines 778–780). -/
structure Det where
  name : String
  conf : ℚ
  display : String
  icon : String
  color : String
  bg : String
  severity : String
deriving DecidableEq, Repr

/-- One element of `ss["history"]` (`app.py` lines 839–845, 1136–1142). -/
structure HistoryEntry where
  time : String
  disease : String
  conf : ℚ
  icon : String
  source : String
deriving DecidableEq, Repr

/-- The history dict built from a detection `d` (`app.py` lines 839–845 and
1136–1142): `{"time": now, "disease": d["display"], "conf": d["conf"],
"icon": d["icon"], "source": source}`. -/
def mkEntry (now source : String) (d : Det) : HistoryEntry :=
  ⟨now, d.display, d.conf, d.icon, source⟩

/-- The upload-tab history update (`app.py` lines 838–846): each detection is
inserted at index 0 in input order, then the list is truncated to its first
100 elements. -/
def recordUpload (history : List HistoryEntry) (dets : List Det) (now : String) :
    List HistoryEntry :=
  (dets.foldl (fun h d => mkEntry now "upload" d :: h) history).take 100

/-- The camera-loop history update (`app.py` lines 1131–1143), which runs
only when `dets` is non-empty (it sits inside `if dets:`).  A detection is
inserted at index 0 when the history is empty, or its display name differs
from the newest entry's, or the wall-clock debounce `time.time() % 3 < 0.1`
fires; the clock read is modelled by the oracle `clockFlag`.  After the loop
the list is truncated to its first 100 elements. -/
def recordCamera (history : List HistoryEntry) (dets : List Det) (now : String)
    (clockFlag : Det → Bool) : List HistoryEntry :=
  if dets.isEmpty then history
  else
    (dets.foldl (fun h d =>
      if h.isEmpty || ((h.head?.map (fun e => e.disease)).getD "") != d.display || clockFlag d
      then mkEntry now "camera" d :: h
      else h) history).take 100

/-- Inserting detections one at a time: one `recordUpload` call per
detection, starting from an empty ledger. -/
def recordEach (dets : List Det) (now : String) : List HistoryEntry :=
  dets.foldl (fun h d => recordUpload h [d] now) []

/-- A concrete run of 150 distinct detections. -/
def dets150 : List Det :=
  (List.range 150).map (fun i => ⟨"d", (i : ℚ), "d", "", "", "", ""⟩)

/-- `counts[d] = counts.get(d, 0) + 1` (`app.py` line 1219) on the
insertion-ordered association list that models the Python dict: an existing
key is updated in place, a new key is appended at the end. -/
def bumpCount : List (String × Nat) → String → List (String × Nat)
  | [], d => [(d, 1)]
  | (k, n) :: rest, d =>
    if k == d then (k, n + 1) :: rest else (k, n) :: bumpCount rest d

/-- `confs.setdefault(d, []).append(h["conf"])` (`app.py` line 1220): an
existing key gets the confidence appended to its list, a new key is appended
at the end of the dict with a singleton list. -/
def addConf : List (String × List ℚ) → String → ℚ → List (String × List ℚ)
  | [], d, c => [(d, [c])]
  | (k, cs) :: rest, d, c =>
    if k == d then (k, cs ++ [c]) :: rest else (k, cs) :: addConf rest d c

/-- The two dicts built by the summary fold of the history tab
(`app.py` lines 1215–1220). -/
structure SummaryAcc where
  counts : List (String × Nat)
  confs : List (String × List ℚ)
deriving DecidableEq, Repr

/-- One iteration of `for h in ss["history"]` (`app.py` lines 1217–1220). -/
def summarizeStep (acc : SummaryAcc) (e : HistoryEntry) : SummaryAcc :=
  ⟨bumpCount acc.counts e.disease, addConf acc.confs e.disease e.conf⟩

/-- The summary fold over the current history (`app.py` lines 1215–1220). -/
def summarize (history : List HistoryEntry) : SummaryAcc :=
  history.foldl summarizeStep ⟨[], []⟩

/-- `sum(counts.values())` (`app.py` line 1240). -/
def sumCounts (counts : List (String × Nat)) : Nat :=
  (counts.map (fun kv => kv.2)).sum

/-- `avg_conf = sum(confs[disease]) / len(confs[disease])`
(`app.py` line 1244). -/
def avg_conf (confs : List (String × List ℚ)) (d : String) : ℚ :=
  ((confs.lookup d).getD []).sum / (((confs.lookup d).getD []).length : ℚ)

/-- The confidences recorded for display name `d`, in ledger order. -/
def confsOf (history : List HistoryEntry) (d : String) : List ℚ :=
  (history.filter (fun e => e.disease == d)).map (fun e => e.conf)

/-- An image buffer: rows of BGR pixels (a `numpy` array of shape H×W×3). -/
def Img : Type := List (List (Nat × Nat × Nat))

instance : DecidableEq Img := by
  unfold Img
  infer_instance

/-- One box of `results[0].boxes`: class id (`box.cls[0]`), confidence
(`box.conf[0]`, a float modelled as a rational) and the pixel coordinates
`map(int, box.xyxy[0])`. -/
structure RawBox where
  cls : Nat
  conf : ℚ
  x1 : Int
  y1 : Int
  x2 : Int
  y2 : Int
deriving DecidableEq, Repr

/-- The external primitives `annotate_image` calls: the `cv2` drawing
routines (`cv2.rectangle`, `cv2.line`, `cv2.getTextSize` — the code keeps
only its `(width, height)` component — and `cv2.putText`) and the Python
f-string formatting `f"{conf:.2f}"`.  They belong to external libraries, not
to this repository, so they are universally quantified: the theorems hold for
every implementation of them. -/
structure CvOps where
  rectangle : Img → (Int × Int) → (Int × Int) → (Nat × Nat × Nat) → Int → Img
  line : Img → (Int × Int) → (Int × Int) → (Nat × Nat × Nat) → Int → Img
  getTextSize : String → Int × Int
  putText : Img → String → (Int × Int) → (Nat × Nat × Nat) → Img
  fmt2 : ℚ → String

/-- The body of the `for box in r.boxes` loop of `annotate_image`
(`app.py` lines 746–780), applied to one buffer: resolve the label
(`model.names.get(cls_id, str(cls_id))`, then `get_disease_info`), draw the
box, the eight corner-accent lines (length 15, thickness `thick+1`), and —
when labels or confidences are shown — the label background rectangle and the
label text; return the drawn-on buffer and the enriched detection record
appended to `dets`. -/
def drawBox (ops : CvOps) (names : List (Nat × String)) (show_lbl show_cf : Bool)
    (bcolor : Nat × Nat × Nat) (thick : Int) (img : Img) (box : RawBox) :
    Img × Det :=
  let conf := box.conf
  let name := ((names.find? (fun kv => kv.1 == box.cls)).map (fun kv => kv.2)).getD
    (toString box.cls)
  let info := get_disease_info name
  let out := ops.rectangle img (box.x1, box.y1) (box.x2, box.y2) bcolor thick
  let L : Int := 15
  let out := ops.line out (box.x1, box.y1) (box.x1 + L, box.y1) bcolor (thick + 1)
  let out := ops.line out (box.x1, box.y1) (box.x1, box.y1 + L) bcolor (thick + 1)
  let out := ops.line out (box.x2, box.y1) (box.x2 - L, box.y1) bcolor (thick + 1)
  let out := ops.line out (box.x2, box.y1) (box.x2, box.y1 + L) bcolor (thick + 1)
  let out := ops.line out (box.x1, box.y2) (box.x1 + L, box.y2) bcolor (thick + 1)
  let out := ops.line out (box.x1, box.y2) (box.x1, box.y2 - L) bcolor (thick + 1)
  let out := ops.line out (box.x2, box.y2) (box.x2 - L, box.y2) bcolor (thick + 1)
  let out := ops.line out (box.x2, box.y2) (box.x2, box.y2 - L) bcolor (thick + 1)
  let out :=
    if show_lbl || show_cf then
      let label := (if show_lbl then info.display else "")
        ++ (if show_cf then "  " ++ ops.fmt2 conf else "")
      let sz := ops.getTextSize label
      let out2 := ops.rectangle out (box.x1, box.y1 - sz.2 - 10)
        (box.x1 + sz.1 + 10, box.y1) bcolor (-1)
      ops.putText out2 label (box.x1 + 5, box.y1 - 5) (240, 237, 230)
    else out
  (out,
   ⟨name, conf, info.display, info.icon, info.color, info.bg, info.severity⟩)

/-- The enriched detection record alone (`app.py` lines 778–780); it depends
only on the box and the class-name mapping, not on the image buffer. -/
def enrichDet (names : List (Nat × String)) (box : RawBox) : Det :=
  let name := ((names.find? (fun kv => kv.1 == box.cls)).map (fun kv => kv.2)).getD
    (toString box.cls)
  let info := get_disease_info name
  ⟨name, box.conf, info.display, info.icon, info.color, info.bg, info.severity⟩

/-- `annotate_image` (`app.py` lines 739–781), value-level: `results` is
`results[0].boxes`, either `None` or the list of boxes; `out = image_bgr.copy()`
is a fresh buffer with the same bytes, so in value semantics `out` starts as
the input image. -/
def annotate_image (ops : CvOps) (names : List (Nat × String)) (image_bgr : Img)
    (boxes : Option (List RawBox)) (show_lbl show_cf : Bool)
    (bcolor : Nat × Nat × Nat) (thick : Int) : Img × List Det :=
  let out := image_bgr
  match boxes with
  | none => (out, [])
  | some bs =>
    bs.foldl (fun acc box =>
      let r := drawBox ops names show_lbl show_cf bcolor thick acc.1 box
      (r.1, acc.2 ++ [r.2])) (out, ([] : List Det))

/-- A heap of image buffers, indexed by allocation order: the identity of a
`numpy` array, so that in-place mutation can be expressed. -/
structure Store where
  bufs : List Img

/-- Read the buffer with identity `i`. -/
def Store.read (σ : Store) (i : Nat) : Img :=
  σ.bufs.getD i []

/-- In-place mutation of the buffer with identity `i`. -/
def Store.write (σ : Store) (i : Nat) (img : Img) : Store :=
  ⟨σ.bufs.set i img⟩

/-- `image_bgr.copy()`: allocate a fresh buffer holding the same bytes as
buffer `src`, returning its new identity. -/
def Store.allocCopy (σ : Store) (src : Nat) : Store × Nat :=
  (⟨σ.bufs ++ [σ.read src]⟩, σ.bufs.length)

/-- `annotate_image` (`app.py` lines 739–781) with buffer identities made
explicit: line 741 allocates `out` as a copy of the caller's `image_bgr`,
and every `cv2` call of the loop reads and writes the `out` buffer in place;
the caller's buffer is never written.  Returns the final heap, the identity
of the annotated buffer, and the enriched detections. -/
def annotate_image_st (ops : CvOps) (names : List (Nat × String)) (σ : Store)
    (imageId : Nat) (boxes : Option (List RawBox)) (show_lbl show_cf : Bool)
    (bcolor : Nat × Nat × Nat) (thick : Int) : Store × Nat × List Det :=
  let a := σ.allocCopy imageId
  let outId := a.2
  match boxes with
  | none => (a.1, outId, [])
  | some bs =>
    let r := bs.foldl (fun acc box =>
      let d := drawBox ops names show_lbl show_cf bcolor thick (acc.1.read outId) box
      (acc.1.write outId d.1, acc.2 ++ [d.2])) (a.1, ([] : List Det))
    (r.1, outId, r.2)

/-- Concrete drawing primitives for the witness: `rectangle` overwrites the
buffer, the rest leave it alone. -/
def opsSample : CvOps where
  rectangle := fun _ _ _ _ _ => [[(9, 9, 9)]]
  line := fun img _ _ _ _ => img
  getTextSize := fun _ => (1, 1)
  putText := fun img _ _ _ => img
  fmt2 := fun _ => "0.90"

/-- A heap holding one 1×1 input image. -/
def storeSample : Store := ⟨[[[(1, 2, 3)]]]⟩

/-- A small concrete ledger: two `Apple Scab` entries and one `Black Rot`. -/
def histSample : List HistoryEntry :=
  [⟨"10:00:00", "Apple Scab", 1, "🟤", "upload"⟩,
   ⟨"10:00:01", "Apple Scab", 0, "🟤", "upload"⟩,
   ⟨"10:00:02", "Black Rot", 1, "🔴", "camera"⟩]

lemma get_disease_info_mut_fst (catalog : List (String × DiseaseProfile)) (s : String) :
    (get_disease_info_mut catalog s).1 = catalog := by
  unfold get_disease_info_mut
  split
  · rfl
  · split
    · rfl
    · rfl

lemma take_append_take {α : Type} (a x : List α) :
    (a ++ x.take 100).take 100 = (a ++ x).take 100 := by
  rw [List.take_append_eq_append_take, List.take_append_eq_append_take, List.take_take,
    Nat.min_eq_left (Nat.sub_le 100 _)]

lemma foldl_cons_take {α : Type} (l acc : List α) (hacc : acc.length ≤ 100) :
    l.foldl (fun h e => (e :: h).take 100) acc = (l.reverse ++ acc).take 100 := by
  induction l generalizing acc with
  | nil => simp [List.take_of_length_le hacc]
  | cons e t ih =>
    rw [List.foldl_cons, ih _ (by simp [List.length_take])]
    rw [List.reverse_cons, List.append_assoc, List.singleton_append]
    exact take_append_take t.reverse (e :: acc)

lemma recordEach_eq (dets : List Det) (now : String) :
    recordEach dets now = ((dets.map (mkEntry now "upload")).reverse).take 100 := by
  have h1 : recordEach dets now
      = (dets.map (mkEntry now "upload")).foldl (fun h e => (e :: h).take 100) [] := by
    rw [List.foldl_map]
    rfl
  rw [h1, foldl_cons_take _ _ (by simp), List.append_nil]

lemma lookup_addConf_self (confs : List (String × List ℚ)) (d : String) (c : ℚ) :
    (addConf confs d c).lookup d = some (((confs.lookup d).getD []) ++ [c]) := by
  induction confs with
  | nil => simp [addConf, List.lookup]
  | cons kv rest ih =>
    obtain ⟨k, cs⟩ := kv
    by_cases h : k = d
    · subst h
      simp [addConf, List.lookup]
    · have h1 : (d == k) = false := beq_eq_false_iff_ne.mpr (Ne.symm h)
      have h2 : (k == d) = false := beq_eq_false_iff_ne.mpr h
      simp [addConf, List.lookup, h1, h2, ih]

lemma lookup_addConf_ne (confs : List (String × List ℚ)) (d d' : String) (c : ℚ)
    (h : d' ≠ d) :
    (addConf confs d c).lookup d' = confs.lookup d' := by
  induction confs with
  | nil =>
    have h1 : (d' == d) = false := beq_eq_false_iff_ne.mpr h
    simp [addConf, List.lookup, h1]
  | cons kv rest ih =>
    obtain ⟨k, cs⟩ := kv
    by_cases hk : k = d
    · have h1 : (d' == k) = false :=
        beq_eq_false_iff_ne.mpr (fun he => h (he.trans hk))
      have h2 : (k == d) = true := beq_iff_eq.mpr hk
      simp [addConf, List.lookup, h1, h2]
    · have h2 : (k == d) = false := beq_eq_false_iff_ne.mpr hk
      by_cases hk' : d' = k
      · subst hk'
        simp [addConf, List.lookup, h2]
      · have h1 : (d' == k) = false := beq_eq_false_iff_ne.mpr hk'
        simp [addConf, List.lookup, h1, h2, ih]

lemma lookup_bumpCount_self (counts : List (String × Nat)) (d : String) :
    (bumpCount counts d).lookup d = some (((counts.lookup d).getD 0) + 1) := by
  induction counts with
  | nil => simp [bumpCount, List.lookup]
  | cons kv rest ih =>
    obtain ⟨k, n⟩ := kv
    by_cases h : k = d
    · subst h
      simp [bumpCount, List.lookup]
    · have h1 : (d == k) = false := beq_eq_false_iff_ne.mpr (Ne.symm h)
      have h2 : (k == d) = false := beq_eq_false_iff_ne.mpr h
      simp [bumpCount, List.lookup, h1, h2, ih]

lemma lookup_bumpCount_ne (counts : List (String × Nat)) (d d' : String)
    (h : d' ≠ d) :
    (bumpCount counts d).lookup d' = counts.lookup d' := by
  induction counts with
  | nil =>
    have h1 : (d' == d) = false := beq_eq_false_iff_ne.mpr h
    simp [bumpCount, List.lookup, h1]
  | cons kv rest ih =>
    obtain ⟨k, n⟩ := kv
    by_cases hk : k = d
    · have h1 : (d' == k) = false :=
        beq_eq_false_iff_ne.mpr (fun he => h (he.trans hk))
      have h2 : (k == d) = true := beq_iff_eq.mpr hk
      simp [bumpCount, List.lookup, h1, h2]
    · have h2 : (k == d) = false := beq_eq_false_iff_ne.mpr hk
      by_cases hk' : d' = k
      · subst hk'
        simp [bumpCount, List.lookup, h2]
      · have h1 : (d' == k) = false := beq_eq_false_iff_ne.mpr hk'
        simp [bumpCount, List.lookup, h1, h2, ih]

lemma sumCounts_bumpCount (counts : List (String × Nat)) (d : String) :
    sumCounts (bumpCount counts d) = sumCounts counts + 1 := by
  induction counts with
  | nil => simp [bumpCount, sumCounts]
  | cons kv rest ih =>
    obtain ⟨k, n⟩ := kv
    by_cases h : k = d
    · subst h
      simp [bumpCount, sumCounts]
      omega
    · simp [bumpCount, sumCounts, h] at ih ⊢
      omega

lemma summarize_counts_sum (history : List HistoryEntry) (acc : SummaryAcc) :
    sumCounts (history.foldl summarizeStep acc).counts
      = sumCounts acc.counts + history.length := by
  induction history generalizing acc with
  | nil => simp
  | cons e t ih =>
    rw [List.foldl_cons, ih]
    simp [summarizeStep, sumCounts_bumpCount]
    omega

lemma summarize_counts_lookup (history : List HistoryEntry) (acc : SummaryAcc)
    (d : String) :
    (((history.foldl summarizeStep acc).counts.lookup d).getD 0)
      = ((acc.counts.lookup d).getD 0)
        + (history.filter (fun e => e.disease == d)).length := by
  induction history generalizing acc with
  | nil => simp
  | cons e t ih =>
    rw [List.foldl_cons, ih]
    by_cases h : e.disease = d
    · subst h
      simp [summarizeStep, lookup_bumpCount_self]
      omega
    · simp [summarizeStep, lookup_bumpCount_ne _ _ _ (Ne.symm h), h]

lemma summarize_confs_lookup (history : List HistoryEntry) (acc : SummaryAcc)
    (d : String) :
    (((history.foldl summarizeStep acc).confs.lookup d).getD [])
      = ((acc.confs.lookup d).getD []) ++ confsOf history d := by
  induction history generalizing acc with
  | nil => simp [confsOf]
  | cons e t ih =>
    rw [List.foldl_cons, ih]
    by_cases h : e.disease = d
    · subst h
      simp [summarizeStep, lookup_addConf_self, confsOf]
    · simp [summarizeStep, lookup_addConf_ne _ _ _ _ (Ne.symm h), confsOf, h]

lemma drawBox_snd (ops : CvOps) (names : List (Nat × String))
    (show_lbl show_cf : Bool) (bcolor : Nat × Nat × Nat) (thick : Int)
    (img : Img) (box : RawBox) :
    (drawBox ops names show_lbl show_cf bcolor thick img box).2
      = enrichDet names box :=
  rfl

lemma annotate_foldl_snd (ops : CvOps) (names : List (Nat × String))
    (show_lbl show_cf : Bool) (bcolor : Nat × Nat × Nat) (thick : Int)
    (bs : List RawBox) (acc : Img × List Det) :
    (bs.foldl (fun acc box =>
      let r := drawBox ops names show_lbl show_cf bcolor thick acc.1 box
      (r.1, acc.2 ++ [r.2])) acc).2 = acc.2 ++ bs.map (enrichDet names) := by
  induction bs generalizing acc with
  | nil => simp
  | cons b t ih =>
    rw [List.foldl_cons, ih]
    simp [drawBox_snd]

lemma getD_set_ne (l : List Img) (j i : Nat) (x d : Img) (h : i ≠ j) :
    (l.set j x).getD i d = l.getD i d := by
  induction l generalizing i j with
  | nil => simp
  | cons a t ih =>
    cases j with
    | zero =>
      cases i with
      | zero => exact absurd rfl h
      | succ i => simp
    | succ j =>
      cases i with
      | zero => simp
      | succ i => simpa using ih j i (fun he => h (by rw [he]))

lemma read_write_ne (σ : Store) (j i : Nat) (img : Img) (h : i ≠ j) :
    (σ.write j img).read i = σ.read i :=
  getD_set_ne σ.bufs j i img [] h

lemma foldl_write_preserve (ops : CvOps) (names : List (Nat × String))
    (show_lbl show_cf : Bool) (bcolor : Nat × Nat × Nat) (thick : Int)
    (bs : List RawBox) (acc : Store × List Det) (i outId : Nat) (h : i ≠ outId) :
    ((bs.foldl (fun acc box =>
      let d := drawBox ops names show_lbl show_cf bcolor thick (acc.1.read outId) box
      (acc.1.write outId d.1, acc.2 ++ [d.2])) acc).1).read i = acc.1.read i := by
  induction bs generalizing acc with
  | nil => rfl
  | cons b t ih =>
    rw [List.foldl_cons, ih]
    exact read_write_ne _ _ _ _ h

/-- C1, counterexample: the input `"unknown"` matches no canonical disease
key by either heuristic, yet `resolve("unknown")` does not carry the original
input string as its display name — it yields the catalog's `"Unknown Class"`
display, because the substring loop of `get_disease_info` also enumerates the
`unknown` key. -/
theorem resolve_unknown_refutes_canonical_fallback_claim :
    matchesNoCanonicalKey "unknown" = true ∧
    (get_disease_info "unknown").display = "Unknown Class" ∧
    (get_disease_info "unknown").display ≠ "unknown" :=
  ⟨by decide, by decide, by decide⟩

/-- C1, amended: the resolver is total and, whenever the normalized input
stands in no substring relation with any key of `DISEASE_INFO` (the `unknown`
key included) and no key's first token occurs in it, it returns a copy of the
`unknown` profile whose display name is exactly the original, non-normalized
input; in particular `resolve("banana")` is the Unknown profile with display
name exactly `"banana"`. -/
theorem resolve_total_with_fallback_display :
    (∀ s : String,
        (∀ kv ∈ DISEASE_INFO, substrMatch kv.1 (normalizeLabel s) = false) →
        (∀ kv ∈ DISEASE_INFO, isSubstr (firstToken kv.1) (normalizeLabel s) = false) →
        get_disease_info s = { unknownKB with display := s }) ∧
    get_disease_info "banana" = { unknownKB with display := "banana" } := by
  constructor
  · intro s h2 h3
    have hm : matchStep (normalizeLabel s) = none := by
      apply List.find?_eq_none.mpr
      intro kv hkv
      simp [h2 kv hkv]
    have ht : tokenStep (normalizeLabel s) = none := by
      apply List.find?_eq_none.mpr
      intro kv hkv
      simp [h3 kv hkv]
    simp [get_disease_info, hm, ht]
  · decide

/-- C1, witness: the fallback hypotheses hold for `"banana"` and the
theorem instantiates to the claimed `resolve("banana")` result. -/
theorem resolve_total_with_fallback_display_witness :
    (∀ kv ∈ DISEASE_INFO, substrMatch kv.1 (normalizeLabel "banana") = false) ∧
    get_disease_info "banana" = { unknownKB with display := "banana" } :=
  ⟨by decide, resolve_total_with_fallback_display.1 "banana" (by decide) (by decide)⟩

/-- C3, counterexample: on input `"unknown"` the substring loop (step 2)
itself returns the catalog's `unknown` entry — the loop does not exclude the
`unknown` key — so the resolver yields the catalog profile with display name
`"Unknown Class"` instead of falling through to the final fallback with
display name `"unknown"`. -/
theorem resolve_unknown_step2_counterexample :
    matchStep (normalizeLabel "unknown") = some ("unknown", unknownKB) ∧
    get_disease_info "unknown" = unknownKB ∧
    unknownKB.display = "Unknown Class" :=
  ⟨by decide, by decide, by decide⟩

/-- C3, amended: the substring step of the resolver enumerates ALL keys of
`DISEASE_INFO`, the `unknown` key included: an input whose normalization
matches none of the four canonical disease keys but stands in a substring
relation with `"unknown"` resolves, in step 2, to the catalog's Unknown
profile (display name `"Unknown Class"`), not to the final fallback. -/
theorem resolve_step2_includes_unknown_key :
    ∀ s : String,
      (∀ k ∈ canonicalKeys, substrMatch k (normalizeLabel s) = false) →
      substrMatch "unknown" (normalizeLabel s) = true →
      get_disease_info s = unknownKB := by
  intro s h4 hu
  have ha := h4 "apple_scab" (by decide)
  have hb := h4 "black_rot" (by decide)
  have hc := h4 "cedar_apple_rust" (by decide)
  have hd := h4 "healthy" (by decide)
  have hm : matchStep (normalizeLabel s) = some ("unknown", unknownKB) := by
    simp [matchStep, DISEASE_INFO, List.find?, ha, hb, hc, hd, hu]
  simp [get_disease_info, hm]

/-- C3, witness: the amended theorem instantiated at the input `"unknown"`. -/
theorem resolve_step2_includes_unknown_key_witness :
    substrMatch "unknown" (normalizeLabel "unknown") = true ∧
    get_disease_info "unknown" = unknownKB :=
  ⟨by decide, resolve_step2_includes_unknown_key "unknown" (by decide) (by decide)⟩

/-- C6: label resolution is case- and separator-insensitive through
normalization: `"Apple_Scab"`, `"apple-scab"` and `"APPLE SCAB"` all resolve
to the `apple_scab` profile. -/
theorem resolve_case_separator_insensitive :
    get_disease_info "Apple_Scab" = appleScabKB ∧
    get_disease_info "apple-scab" = appleScabKB ∧
    get_disease_info "APPLE SCAB" = appleScabKB :=
  ⟨by decide, by decide, by decide⟩

/-- C7: for every canonical key of the knowledge base, dict lookup returns
exactly the stored profile, and the resolver on the key itself also returns
exactly that profile. -/
theorem kb_lookup_identity_on_canonical_keys :
    ∀ kv ∈ DISEASE_INFO, kv.1 ∈ canonicalKeys →
      lookupKB kv.1 = some kv.2 ∧ get_disease_info kv.1 = kv.2 := by
  decide

/-- C7, witness: the identity at the canonical key `"apple_scab"`. -/
theorem kb_lookup_identity_witness :
    lookupKB "apple_scab" = some appleScabKB ∧
    get_disease_info "apple_scab" = appleScabKB :=
  kb_lookup_identity_on_canonical_keys ("apple_scab", appleScabKB) (by decide) (by decide)

/-- C9: no call to the resolver mutates the knowledge base: the state-passing
resolver hands back the catalog unchanged for every input, and in particular
the `unknown` profile's display name is still `"Unknown Class"` after the
call — the final-fallback display override happens on a copy. -/
theorem resolver_never_mutates_catalog :
    ∀ s : String,
      (get_disease_info_mut DISEASE_INFO s).1 = DISEASE_INFO ∧
      ((get_disease_info_mut DISEASE_INFO s).1.find? (fun kv => kv.1 == "unknown")).map
          (fun kv => kv.2.display) = some "Unknown Class" := by
  intro s
  refine ⟨get_disease_info_mut_fst DISEASE_INFO s, ?_⟩
  rw [get_disease_info_mut_fst]
  decide

/-- C10: the empty string normalizes to a string that is a substring of every
key, so `resolve("")` returns the first catalog entry in enumeration order —
the `apple_scab` profile — and the final fallback is reachable only for
inputs on which both matching steps found nothing, which rules out `""`. -/
theorem resolve_empty_string_first_key :
    get_disease_info "" = appleScabKB ∧
    ∀ s : String,
      matchStep (normalizeLabel s) = none → tokenStep (normalizeLabel s) = none →
      s ≠ "" := by
  constructor
  · decide
  · intro s h1 _ he
    subst he
    exact absurd h1 (by decide)

/-- C10, witness: `"banana"` reaches the fallback and is indeed non-empty. -/
theorem resolve_empty_string_first_key_witness :
    matchStep (normalizeLabel "banana") = none ∧
    tokenStep (normalizeLabel "banana") = none ∧
    "banana" ≠ "" :=
  ⟨by decide, by decide, resolve_empty_string_first_key.2 "banana" (by decide) (by decide)⟩

/-- C2: both history-record operations leave at most 100 entries (the camera
variant under the ledger invariant that the history already held at most
100), and inserting 150 detections one at a time leaves exactly the 100
most-recently-inserted entries, newest first (the reverse of the insertion
order, truncated to 100). -/
theorem history_ledger_cap :
    (∀ (h : List HistoryEntry) (dets : List Det) (now : String),
        (recordUpload h dets now).length ≤ 100) ∧
    (∀ (h : List HistoryEntry) (dets : List Det) (now : String) (clockFlag : Det → Bool),
        h.length ≤ 100 → (recordCamera h dets now clockFlag).length ≤ 100) ∧
    (∀ (dets : List Det) (now : String), dets.length = 150 →
        recordEach dets now = ((dets.map (mkEntry now "upload")).reverse).take 100 ∧
        (recordEach dets now).length = 100) := by
  refine ⟨?_, ?_, ?_⟩
  · intro h dets now
    simp [recordUpload, List.length_take]
  · intro h dets now clockFlag hh
    unfold recordCamera
    split
    · exact hh
    · simp [List.length_take]
  · intro dets now hlen
    refine ⟨recordEach_eq dets now, ?_⟩
    rw [recordEach_eq]
    simp [List.length_take, hlen]

set_option maxRecDepth 4000 in
/-- C2, witness: the cap theorem instantiated on concrete ledgers, including
the 150-one-at-a-time run. -/
theorem history_ledger_cap_witness :
    (recordCamera [] [] "00:00:00" (fun _ => false)).length ≤ 100 ∧
    dets150.length = 150 ∧
    recordEach dets150 "00:00:00"
      = ((dets150.map (mkEntry "00:00:00" "upload")).reverse).take 100 ∧
    (recordEach dets150 "00:00:00").length = 100 :=
  ⟨history_ledger_cap.2.1 [] [] "00:00:00" (fun _ => false) (by decide),
   by decide,
   (history_ledger_cap.2.2 dets150 "00:00:00" (by decide)).1,
   (history_ledger_cap.2.2 dets150 "00:00:00" (by decide)).2⟩

/-- C5: the summary fold groups history entries by their display-name string:
the sum of the per-disease counts equals the number of entries held (the
total shown next to `len(ss["history"])`), each disease's count is the number
of entries carrying that display name, and for every disease name present in
the summary the displayed average confidence is the arithmetic mean of the
confidences recorded for that display name. -/
theorem summarize_totalcount_and_mean :
    (∀ history : List HistoryEntry,
        sumCounts (summarize history).counts = history.length) ∧
    (∀ (history : List HistoryEntry) (d : String) (n : Nat),
        (summarize history).counts.lookup d = some n →
        n = (history.filter (fun e => e.disease == d)).length) ∧
    (∀ (history : List HistoryEntry) (d : String) (cs : List ℚ),
        (summarize history).confs.lookup d = some cs →
        cs = confsOf history d ∧
        avg_conf (summarize history).confs d
          = (confsOf history d).sum / ((confsOf history d).length : ℚ)) := by
  refine ⟨?_, ?_, ?_⟩
  · intro history
    have h := summarize_counts_sum history ⟨[], []⟩
    simpa [summarize, sumCounts] using h
  · intro history d n hn
    have h := summarize_counts_lookup history ⟨[], []⟩ d
    unfold summarize at hn
    rw [hn] at h
    simpa [List.lookup] using h
  · intro history d cs hcs
    have h := summarize_confs_lookup history ⟨[], []⟩ d
    unfold summarize at hcs
    rw [hcs] at h
    simp [List.lookup] at h
    refine ⟨h, ?_⟩
    unfold avg_conf summarize
    rw [hcs]
    simp [h]

/-- C4: annotating `N` raw detections yields exactly `N` enriched records,
in the order of the input boxes (each the enrichment of the corresponding
box); annotating zero detections — `r.boxes is None` or an empty box list —
returns an empty detection list and an image equal byte-for-byte to the
input. -/
theorem annotate_image_count_order_empty (ops : CvOps)
    (names : List (Nat × String)) (image_bgr : Img) (bs : List RawBox)
    (show_lbl show_cf : Bool) (bcolor : Nat × Nat × Nat) (thick : Int) :
    (annotate_image ops names image_bgr (some bs) show_lbl show_cf bcolor thick).2
      = bs.map (enrichDet names) ∧
    (annotate_image ops names image_bgr (some bs) show_lbl show_cf bcolor thick).2.length
      = bs.length ∧
    annotate_image ops names image_bgr none show_lbl show_cf bcolor thick
      = (image_bgr, []) ∧
    annotate_image ops names image_bgr (some []) show_lbl show_cf bcolor thick
      = (image_bgr, []) := by
  have h : (annotate_image ops names image_bgr (some bs) show_lbl show_cf bcolor thick).2
      = bs.map (enrichDet names) := by
    unfold annotate_image
    simpa using annotate_foldl_snd ops names show_lbl show_cf bcolor thick bs (image_bgr, [])
  exact ⟨h, by rw [h]; simp, rfl, rfl⟩

/-- C8: the annotator never mutates the caller's image buffer: it draws on a
fresh copy (whose identity differs from the input's), and after the call the
input buffer holds exactly the bytes it held before, for every detection
list and every implementation of the drawing primitives. -/
theorem annotate_image_preserves_input_buffer (ops : CvOps)
    (names : List (Nat × String)) (σ : Store) (imageId : Nat)
    (boxes : Option (List RawBox)) (show_lbl show_cf : Bool)
    (bcolor : Nat × Nat × Nat) (thick : Int)
    (h : imageId < σ.bufs.length) :
    ((annotate_image_st ops names σ imageId boxes show_lbl show_cf bcolor thick).1).read
        imageId = σ.read imageId ∧
    (annotate_image_st ops names σ imageId boxes show_lbl show_cf bcolor thick).2.1
      ≠ imageId := by
  have hne : imageId ≠ σ.bufs.length := Nat.ne_of_lt h
  have halloc : ((σ.allocCopy imageId).1).read imageId = σ.read imageId := by
    unfold Store.allocCopy Store.read
    simp [List.getElem?_append, h]
  cases boxes with
  | none => exact ⟨halloc, Ne.symm hne⟩
  | some bs =>
    refine ⟨?_, Ne.symm hne⟩
    have hfold := foldl_write_preserve ops names show_lbl show_cf bcolor thick bs
      ((σ.allocCopy imageId).1, ([] : List Det)) imageId (σ.allocCopy imageId).2 hne
    exact hfold.trans halloc

/-- C8, witness: on the concrete one-buffer heap with a destructive
`rectangle`, annotating one box leaves the input buffer untouched. -/
theorem annotate_image_preserves_input_buffer_witness :
    0 < storeSample.bufs.length ∧
    ((annotate_image_st opsSample [] storeSample 0
        (some [⟨0, (9 : ℚ) / 10, 0, 0, 5, 5⟩]) true true (45, 106, 79) 2).1).read 0
      = storeSample.read 0 :=
  ⟨by decide,
   (annotate_image_preserves_input_buffer opsSample [] storeSample 0
      (some [⟨0, (9 : ℚ) / 10, 0, 0, 5, 5⟩]) true true (45, 106, 79) 2 (by decide)).1⟩

/-- C5, witness: the summary theorem instantiated on the concrete ledger. -/
theorem summarize_totalcount_and_mean_witness :
    (summarize histSample).confs.lookup "Apple Scab" = some [1, 0] ∧
    avg_conf (summarize histSample).confs "Apple Scab"
      = (confsOf histSample "Apple Scab").sum
        / ((confsOf histSample "Apple Scab").length : ℚ) ∧
    (summarize histSample).counts.lookup "Apple Scab" = some 2 ∧
    (2 : Nat) = (histSample.filter (fun e => e.disease == "Apple Scab")).length :=
  ⟨by decide,
   (summarize_totalcount_and_mean.2.2 histSample "Apple Scab" [1, 0] (by decide)).2,
   by decide,
   summarize_totalcount_and_mean.2.1 histSample "Apple Scab" 2 (by decide)⟩
